import Mathlib

/-!
Verification of the geofence/telemetry derivation layer of the geotab-tracker
repository (vehicleUtils.js, VehicleMap.jsx, GForceChart.jsx) against its
natural-language specification.

Modelling conventions used throughout this file:
* `dateTime` values are modelled as `Nat` (an abstract, totally ordered
  timestamp; the source sorts by `new Date(s)` values).
* Numeric telemetry `data` is modelled as `Option ℚ` (`none` is JavaScript
  `null`); arithmetic that the source performs with plain operators is exact
  rational arithmetic, and quantities built from transcendental functions
  (Haversine distance, Euclidean norms) live in `ℝ`.
* `Array.prototype.sort` with a date comparator is modelled by a stable
  insertion sort keyed by the timestamp.
* The network is modelled as an environment `String → List Sample` mapping a
  diagnostic identifier to the series the API returns for it.
-/

namespace GeotabTracker

/-- A StatusData sample: a timestamp plus a possibly-null numeric payload. -/
structure Sample where
  dateTime : Nat
  data : Option ℚ
deriving DecidableEq

/-- Stable ascending sort by a `Nat` key (models `arr.sort((a,b) => key(a) - key(b))`). -/
def sortAscBy (key : α → Nat) (l : List α) : List α :=
  List.insertionSort (fun a b => key a ≤ key b) l

/-- Stable descending sort by a `Nat` key (models `arr.sort((a,b) => key(b) - key(a))`). -/
def sortDescBy (key : α → Nat) (l : List α) : List α :=
  List.insertionSort (fun a b => key b ≤ key a) l

/-- `charsLeadMatch pat l` is true when `pat` occurs at the start of `l`. -/
def charsLeadMatch : List Char → List Char → Bool
  | [], _ => true
  | _ :: _, [] => false
  | p :: ps, c :: cs => p == c && charsLeadMatch ps cs

/-- `charsContain pat l`: `pat` occurs contiguously somewhere in `l`. -/
def charsContain (pat : List Char) : List Char → Bool
  | [] => charsLeadMatch pat []
  | c :: cs => charsLeadMatch pat (c :: cs) || charsContain pat cs

/-- Model of JavaScript `s.includes(pat)`. -/
def strIncludes (s pat : String) : Bool :=
  charsContain pat.toList s.toList

/-! ## Diagnostic Resolver: `fetchOdometer` (vehicleUtils.js lines 171-222) -/

/-- The ordered odometer candidate diagnostics from `fetchOdometer`. -/
def odometerDiagnostics : List String :=
  ["DiagnosticOdometerId",
   "DiagnosticOBDOdometerReaderId",
   "DiagnosticJ1939TotalVehicleDistanceId",
   "DiagnosticJ1708TotalVehicleDistanceId",
   "DiagnosticOdometerAdjustmentId"]

/-- The value the loop body of `fetchOdometer` extracts from one candidate's
series: sort descending by `dateTime`; if the series is non-empty and the
first (latest) sample's `data` is non-null, that datum, otherwise nothing.
(`head?` is `none` exactly when the series is empty, matching the
`result.length > 0` guard.) -/
def latestReadingData (series : List Sample) : Option ℚ :=
  (sortDescBy (fun s => s.dateTime) series).head?.bind (fun s => s.data)

/-- The candidate loop of `fetchOdometer`.  Returns the resolved value
together with the trace of candidate diagnostics actually queried (the loop
`break`s right after the first hit, so candidates after the hit are never
queried). -/
def odoLoop (res : String → List Sample) : List String → Option ℚ × List String
  | [] => (none, [])
  | diagId :: rest =>
    match latestReadingData (res diagId) with
    | some d => (some d, [diagId])
    | none =>
      let p := odoLoop res rest
      (p.1, diagId :: p.2)

/-- `fetchOdometer`, with the fetched series supplied by the environment
`res`.  First component: the returned odometer value (or `null`); second
component: which diagnostics were queried. -/
def fetchOdometer (res : String → List Sample) : Option ℚ × List String :=
  odoLoop res odometerDiagnostics

/-! ## Fuel resolution: `fetchFuelConsumption` (vehicleUtils.js lines 230-296) -/

/-- The ordered fuel candidate diagnostics from `fetchFuelConsumption`. -/
def fuelDiagnostics : List String :=
  ["DiagnosticDeviceTotalFuelId",
   "DiagnosticFuelUsedId",
   "DiagnosticFuelLevelId",
   "DiagnosticOBDFuelLevelInputId",
   "DiagnosticJ1939FuelLevelId",
   "DiagnosticJ1708FuelLevelId"]

/-- The fuel snapshot accumulated by `fetchFuelConsumption`. -/
structure FuelData where
  totalFuel : Option ℚ
  fuelLevel : Option ℚ
  lastUpdated : Option Nat
deriving DecidableEq

/-- `diagId.includes('TotalFuel') || diagId.includes('FuelUsed')`. -/
def isTotalFuelDiag (diagId : String) : Bool :=
  strIncludes diagId "TotalFuel" || strIncludes diagId "FuelUsed"

/-- `diagId.includes('FuelLevel')`. -/
def isFuelLevelDiag (diagId : String) : Bool :=
  strIncludes diagId "FuelLevel"

/-- One iteration of the `fetchFuelConsumption` candidate loop: take the
latest reading of the candidate's series; if its `data` is non-null, assign
the matching slot (total-fuel-like identifiers first, else fuel-level-like),
overwriting whatever the slot held. -/
def fuelStep (res : String → List Sample) (fd : FuelData) (diagId : String) : FuelData :=
  match (sortDescBy (fun s => s.dateTime) (res diagId)).head? with
  | none => fd
  | some latestReading =>
    match latestReading.data with
    | none => fd
    | some d =>
      if isTotalFuelDiag diagId then
        { fd with totalFuel := some d, lastUpdated := some latestReading.dateTime }
      else if isFuelLevelDiag diagId then
        { fd with fuelLevel := some d, lastUpdated := some latestReading.dateTime }
      else fd

/-- `fetchFuelConsumption`, with fetched series supplied by `res`. -/
def fetchFuelConsumption (res : String → List Sample) : FuelData :=
  fuelDiagnostics.foldl (fuelStep res) ⟨none, none, none⟩

/-- Specification-side helper: the chronologically-latest non-null values
contributed by the candidates of `ids` that satisfy the slot predicate
`slotPred`, in candidate order. -/
def slotValues (res : String → List Sample) (slotPred : String → Bool)
    (ids : List String) : List ℚ :=
  ids.filterMap (fun diagId => if slotPred diagId then latestReadingData (res diagId) else none)

/-- Concrete environment for the fuel-resolution counterexample: the first
total-fuel candidate yields 10, the second (also total-fuel) yields 20. -/
def fuelEnv : String → List Sample := fun diagId =>
  if diagId = "DiagnosticDeviceTotalFuelId" then [⟨0, some 10⟩]
  else if diagId = "DiagnosticFuelUsedId" then [⟨1, some 20⟩]
  else []

/-- Concrete environment for the odometer counterexample: the first candidate
has a non-null sample, but its *latest* sample is null; all other candidates
are empty. -/
def odoNullLatestEnv : String → List Sample := fun diagId =>
  if diagId = "DiagnosticOdometerId" then [⟨1, some 5⟩, ⟨2, none⟩]
  else []

/-- Concrete environment where the first two odometer candidates both have
non-null latest data. -/
def odoBothEnv : String → List Sample := fun diagId =>
  if diagId = "DiagnosticOdometerId" then [⟨3, some 777⟩]
  else [⟨9, some 111⟩]

/-! ## Fuel Efficiency Calculator: `calculateFuelEfficiency`
(vehicleUtils.js lines 305-386, the series-processing part after the
MultiCall response is received) -/

/-- The result record of `calculateFuelEfficiency`. -/
structure EfficiencyResult where
  efficiency : ℚ
  distance : ℚ
  fuelUsed : ℚ
  period : ℚ
deriving DecidableEq

/-- JavaScript numeric coercion of a sample slot: a missing sample or a
`null` datum behaves as 0 in arithmetic. -/
def sampleVal (o : Option Sample) : ℚ :=
  (o.map (fun s => s.data.getD 0)).getD 0

/-- The series-processing core of `calculateFuelEfficiency`: empty-series
guard, ascending sort, last-minus-first deltas, zero-distance guard,
`(fuelUsed / (distance / 1000)) * 100` in L/100km. -/
def calculateFuelEfficiency (odometerData fuelUsedData : List Sample) (hours : ℚ) :
    Option EfficiencyResult :=
  if odometerData.length = 0 ∨ fuelUsedData.length = 0 then none
  else
    let sortedOdometer := sortAscBy (fun s => s.dateTime) odometerData
    let sortedFuel := sortAscBy (fun s => s.dateTime) fuelUsedData
    let distance := sampleVal sortedOdometer.getLast? - sampleVal sortedOdometer.head?
    let fuelUsed := sampleVal sortedFuel.getLast? - sampleVal sortedFuel.head?
    if distance = 0 then none
    else some ⟨(fuelUsed / (distance / 1000)) * 100, distance / 1000, fuelUsed, hours⟩

/-- Specification-side helper: last-minus-first delta of a series after
sorting it ascending by `dateTime`. -/
def seriesDelta (l : List Sample) : ℚ :=
  sampleVal (sortAscBy (fun s => s.dateTime) l).getLast? -
    sampleVal (sortAscBy (fun s => s.dateTime) l).head?

/-- Concrete odometer series for the efficiency witness (10 km). -/
def odoSeriesW : List Sample := [⟨0, some 1000⟩, ⟨1, some 11000⟩]

/-- Concrete fuel series for the efficiency witness (1 L). -/
def fuelSeriesW : List Sample := [⟨0, some 5⟩, ⟨1, some 6⟩]

/-! ## Fault Aggregator: `groupFaultsByDiagnostic` (vehicleUtils.js lines 58-119) -/

/-- The `diagnostic` sub-object of a fault event; every field may be absent. -/
structure DiagnosticRef where
  id : Option String
  name : Option String
  code : Option String
deriving DecidableEq

/-- A raw fault event.  Only the fields the aggregator reads (plus `id`,
which it copies into the stored instance) are modelled; the remaining
pass-through fields (lamps, spn, fmi, ...) carry no algorithmic content. -/
structure FaultEvent where
  id : String
  dateTime : Nat
  faultState : Option String
  diagnostic : Option DiagnosticRef
deriving DecidableEq

/-- The per-event record pushed onto `group.faultInstances` (a projection of
the event; the omitted pass-through fields are copied verbatim in the
source). -/
structure FaultInstance where
  id : String
  dateTime : Nat
  faultState : Option String
deriving DecidableEq

/-- Projection of an event to its stored instance. -/
def toInstance (f : FaultEvent) : FaultInstance :=
  ⟨f.id, f.dateTime, f.faultState⟩

/-- JavaScript truthiness of an optional string (`undefined` and `''` are
falsy). -/
def strTruthy : Option String → Option String
  | some s => if s = "" then none else some s
  | none => none

/-- `fault.diagnostic?.name || fault.diagnostic?.id || 'Unknown'`. -/
def diagnosticKey (f : FaultEvent) : String :=
  ((strTruthy (f.diagnostic.bind (fun d => d.name))).orElse
    (fun _ => strTruthy (f.diagnostic.bind (fun d => d.id)))).getD "Unknown"

/-- One accumulated fault group. -/
structure FaultGroup where
  diagnosticName : String
  diagnosticId : Option String
  diagnosticCode : Option String
  count : Nat
  activeFaults : Nat
  inactiveFaults : Nat
  mostRecentDate : Nat
  oldestDate : Nat
  faultInstances : List FaultInstance
deriving DecidableEq

/-- The fresh group created when a key is first seen (counts 0, both date
bounds seeded with the event's `dateTime`, no instances yet). -/
def initGroup (key : String) (f : FaultEvent) : FaultGroup :=
  { diagnosticName := key
    diagnosticId := f.diagnostic.bind (fun d => d.id)
    diagnosticCode := f.diagnostic.bind (fun d => d.code)
    count := 0
    activeFaults := 0
    inactiveFaults := 0
    mostRecentDate := f.dateTime
    oldestDate := f.dateTime
    faultInstances := [] }

/-- The per-event mutation of a group: bump `count`, tally the
active/inactive split (`faultState === 'Active'` versus everything else),
widen the date range, append the instance. -/
def updateGroup (g : FaultGroup) (f : FaultEvent) : FaultGroup :=
  { g with
    count := g.count + 1
    activeFaults := if f.faultState = some "Active" then g.activeFaults + 1 else g.activeFaults
    inactiveFaults := if f.faultState = some "Active" then g.inactiveFaults else g.inactiveFaults + 1
    mostRecentDate := if g.mostRecentDate < f.dateTime then f.dateTime else g.mostRecentDate
    oldestDate := if f.dateTime < g.oldestDate then f.dateTime else g.oldestDate
    faultInstances := g.faultInstances ++ [toInstance f] }

/-- Process one event against the accumulated association list (JavaScript
object with string keys: insertion order is preserved, new keys are appended
at the end). -/
def addFault (f : FaultEvent) : List (String × FaultGroup) → List (String × FaultGroup)
  | [] => [(diagnosticKey f, updateGroup (initGroup (diagnosticKey f) f) f)]
  | (k, g) :: rest =>
    if k = diagnosticKey f then (k, updateGroup g f) :: rest
    else (k, g) :: addFault f rest

/-- `groupFaultsByDiagnostic`: accumulate per-key groups, then sort the
groups descending by `mostRecentDate`. -/
def groupFaultsByDiagnostic (faults : List FaultEvent) : List FaultGroup :=
  sortDescBy (fun g => g.mostRecentDate)
    ((faults.foldl (fun acc f => addFault f acc) []).map Prod.snd)

/-- Concrete fault events for the aggregator witnesses. -/
def faultEventsW : List FaultEvent :=
  [⟨"a", 10, some "Active", some ⟨some "D1", some "EngineTemp", none⟩⟩,
   ⟨"b", 5, some "Pending", some ⟨some "D1", some "EngineTemp", none⟩⟩,
   ⟨"c", 7, none, none⟩]

/-! ## Accelerometer Fusion: `combineAccelerometerData`
(vehicleUtils.js lines 571-622), the alternative single-axis fallback
`fetchAccelerometerDataAlternative` (lines 498-562), and the G-force
pipeline of `fetchGForceData` (GForceChart.jsx lines 52-83). -/

/-- A fused tri-axis record (the display-only `time`/`timeFormatted`/`index`
fields of the chart layer are omitted). -/
structure AccRec where
  dateTime : Nat
  accelerationX : ℚ
  accelerationY : ℚ
  accelerationZ : ℚ
deriving DecidableEq

/-- The defaulted entry created on first sight of a timestamp. -/
def blankRec (t : Nat) : AccRec := ⟨t, 0, 0, 0⟩

/-- `readingsMap.get(timestamp).accelerationX = reading.data || 0`. -/
def setXAxis (v : ℚ) (a : AccRec) : AccRec := { a with accelerationX := v }

/-- `readingsMap.get(timestamp).accelerationY = reading.data || 0`. -/
def setYAxis (v : ℚ) (a : AccRec) : AccRec := { a with accelerationY := v }

/-- `readingsMap.get(timestamp).accelerationZ = reading.data || 0`. -/
def setZAxis (v : ℚ) (a : AccRec) : AccRec := { a with accelerationZ := v }

/-- Process one reading of one axis against the timestamp-keyed map (a JS
`Map`, modelled as an association list in insertion order): get-or-create
the entry for the reading's timestamp, then overwrite that axis with
`reading.data || 0`. -/
def upsertAxis (upd : ℚ → AccRec → AccRec) (r : Sample) :
    List (Nat × AccRec) → List (Nat × AccRec)
  | [] => [(r.dateTime, upd (r.data.getD 0) (blankRec r.dateTime))]
  | (t, a) :: rest =>
    if t = r.dateTime then (t, upd (r.data.getD 0) a) :: rest
    else (t, a) :: upsertAxis upd r rest

/-- One `forEach` block of `combineAccelerometerData`: fold a whole series
into the map. -/
def processAxis (upd : ℚ → AccRec → AccRec) (m : List (Nat × AccRec))
    (rs : List Sample) : List (Nat × AccRec) :=
  rs.foldl (fun m r => upsertAxis upd r m) m

/-- `combineAccelerometerData`: fold the three axis series into the
timestamp map, then sort the values ascending by timestamp. -/
def combineAccelerometerData (xAxisData yAxisData zAxisData : List Sample) : List AccRec :=
  sortAscBy (fun a => a.dateTime)
    ((processAxis setZAxis
        (processAxis setYAxis
          (processAxis setXAxis [] xAxisData) yAxisData) zAxisData).map Prod.snd)

/-- Specification-side helper: the timestamps of a series. -/
def sampleTimes (rs : List Sample) : List Nat := rs.map (fun s => s.dateTime)

/-- Specification-side helper: the value the fused record's axis must carry
at timestamp `t` — the *last* sample of the series at `t` (its `data`, null
coerced to 0), or 0 when the series has no sample at `t`. -/
def lastDataAt (rs : List Sample) (t : Nat) : ℚ :=
  ((rs.reverse.find? (fun s => s.dateTime = t)).map (fun s => s.data.getD 0)).getD 0

/-- Association-list lookup used for the fusion proofs. -/
def alookup (t : Nat) : List (Nat × AccRec) → Option AccRec
  | [] => none
  | (k, a) :: rest => if k = t then some a else alookup t rest

/-- `fetchAccelerometerDataAlternative`'s `reduce`: the best-populated
series (ties keep the earlier one; seeded with `results[0] || []`). -/
def bestResult (results : List (List Sample)) : List Sample :=
  results.foldl (fun best cur => if best.length < cur.length then cur else best)
    (results.headD [])

/-- `fetchAccelerometerDataAlternative`, from the point where the MultiCall
response (one series per alternative diagnostic) is available: pick the
best-populated single-axis series and map it entirely onto the X axis with
Y = Z = 0.  The returned records have exactly the same shape as the
primary path's fused records. -/
def fetchAccelerometerDataAlternative (results : List (List Sample)) : List AccRec :=
  if results.length = 0 then []
  else
    (bestResult results).map
      (fun reading => ⟨reading.dateTime, reading.data.getD 0, 0, 0⟩)

/-- `reading.acceleration / 9.81` (G-force conversion of one axis). -/
noncomputable def gForceAxis (v : ℚ) : ℝ := (v : ℝ) / 9.81

/-- The unrounded G-force magnitude of a fused sample:
`sqrt(gForceX² + gForceY² + gForceZ²)` over the unrounded axis values. -/
noncomputable def normGForce (a : AccRec) : ℝ :=
  Real.sqrt (gForceAxis a.accelerationX * gForceAxis a.accelerationX +
    gForceAxis a.accelerationY * gForceAxis a.accelerationY +
    gForceAxis a.accelerationZ * gForceAxis a.accelerationZ)

/-- `parseFloat(v.toFixed(3))`: round to 3 decimal places, ties away from
the smaller value (the ECMAScript `toFixed` rule "if there are two such n,
pick the larger n"). -/
noncomputable def round3 (v : ℝ) : ℝ := (⌊v * 1000 + 1 / 2⌋ : ℤ) / 1000

/-- One processed chart record of `fetchGForceData` (display-only fields
omitted).  Note that `totalGForce` is the *rounded* magnitude. -/
structure GForceRec where
  gForceX : ℝ
  gForceY : ℝ
  gForceZ : ℝ
  totalGForce : ℝ

/-- The per-sample processing step of `fetchGForceData`: convert each axis
to G-force, compute the magnitude from the unrounded axes, round every
stored output to 3 decimal places. -/
noncomputable def processReading (a : AccRec) : GForceRec :=
  { gForceX := round3 (gForceAxis a.accelerationX)
    gForceY := round3 (gForceAxis a.accelerationY)
    gForceZ := round3 (gForceAxis a.accelerationZ)
    totalGForce := round3 (normGForce a) }

/-- The aggregate statistics record of `fetchGForceData`. -/
structure GForceStats where
  maxGForce : ℝ
  minGForce : ℝ
  avgGForce : ℝ
  totalDataPoints : Nat

/-- The statistics computation of `fetchGForceData` (lines 72-83): the
values aggregated are the `totalGForce` fields of the *processed* (already
rounded) records; `Math.max`/`Math.min` over a non-empty spread, mean by
sum over length, each then passed through `toFixed(3)` again.  (The source
only computes statistics for a non-empty data set; the `[]` arms below are
never reached under that guard.) -/
noncomputable def gForceStats (data : List AccRec) : GForceStats :=
  let processed := data.map processReading
  let gForceValues := processed.map (fun d => d.totalGForce)
  let maxG := match gForceValues with
    | [] => 0
    | v :: rest => rest.foldl max v
  let minG := match gForceValues with
    | [] => 0
    | v :: rest => rest.foldl min v
  let avgG := gForceValues.foldl (fun sum val => sum + val) 0 / (gForceValues.length : ℝ)
  { maxGForce := round3 maxG
    minGForce := round3 minG
    avgGForce := round3 avgG
    totalDataPoints := processed.length }

/-- Specification-side helper: the rounded per-sample magnitudes. -/
noncomputable def roundedNorms (data : List AccRec) : List ℝ :=
  data.map (fun a => round3 (normGForce a))

/-- Specification-side helper: `Math.max` over a non-empty list. -/
def maxListR : List ℝ → ℝ
  | [] => 0
  | v :: rest => rest.foldl max v

/-- Specification-side helper: `Math.min` over a non-empty list. -/
def minListR : List ℝ → ℝ
  | [] => 0
  | v :: rest => rest.foldl min v

/-- The fused sample used in the G-force statistics counterexample: a pure
X-axis acceleration of 981/1600 m/s², whose exact magnitude 1/16 g is not
representable in 3 decimal places. -/
def cSample : AccRec := ⟨0, 981 / 1600, 0, 0⟩

/-- Specification-side helper: the per-group invariant maintained by the
fault accumulation (count splits, instance count, date bounds as
min/max over the stored instances, and the exhaustive Active/non-Active
tally). -/
def GroupOK (g : FaultGroup) : Prop :=
  g.count = g.activeFaults + g.inactiveFaults ∧
  g.count = g.faultInstances.length ∧
  (∃ i ∈ g.faultInstances, i.dateTime = g.mostRecentDate) ∧
  (∀ i ∈ g.faultInstances, i.dateTime ≤ g.mostRecentDate) ∧
  (∃ i ∈ g.faultInstances, i.dateTime = g.oldestDate) ∧
  (∀ i ∈ g.faultInstances, g.oldestDate ≤ i.dateTime) ∧
  g.activeFaults = (g.faultInstances.filter (fun i => i.faultState = some "Active")).length ∧
  g.inactiveFaults = (g.faultInstances.filter (fun i => ¬ i.faultState = some "Active")).length
/-! ## Geospatial Primitives and Geofence Evaluator
(`calculateDistance` / `isPointInPolygon` — vehicleUtils.js lines 128-162 and
VehicleMap.jsx lines 46-80 — and the geofence-status effect of
`VehicleMap`, VehicleMap.jsx lines 279-313). -/

/-- A geographic position in degrees. -/
structure Position where
  latitude : ℝ
  longitude : ℝ

open Classical in
/-- JavaScript `Math.atan2(y, x)`. -/
noncomputable def atan2 (y x : ℝ) : ℝ :=
  if 0 < x then Real.arctan (y / x)
  else if x < 0 ∧ 0 ≤ y then Real.arctan (y / x) + Real.pi
  else if x < 0 ∧ y < 0 then Real.arctan (y / x) - Real.pi
  else if x = 0 ∧ 0 < y then Real.pi / 2
  else if x = 0 ∧ y < 0 then -(Real.pi / 2)
  else 0

/-- `calculateDistance`: Haversine great-circle distance in meters, Earth
radius 6 371 000 m. -/
noncomputable def calculateDistance (latlon1 latlon2 : Position) : ℝ :=
  let R : ℝ := 6371e3
  let phi1 := latlon1.latitude * Real.pi / 180
  let phi2 := latlon2.latitude * Real.pi / 180
  let dPhi := (latlon2.latitude - latlon1.latitude) * Real.pi / 180
  let dLam := (latlon2.longitude - latlon1.longitude) * Real.pi / 180
  let a := Real.sin (dPhi / 2) * Real.sin (dPhi / 2) +
    Real.cos phi1 * Real.cos phi2 * Real.sin (dLam / 2) * Real.sin (dLam / 2)
  let c := 2 * atan2 (Real.sqrt a) (Real.sqrt (1 - a))
  R * c

open Classical in
/-- One iteration of the ray-casting loop of `isPointInPolygon`, for the
edge from the previous vertex `pj` to the current vertex `pi` (each vertex a
`[latitude, longitude]` pair; the loop reads index 1 as x and index 0 as
y). -/
noncomputable def rayCastStep (x y : ℝ) (inside : Bool) (pij : (ℝ × ℝ) × (ℝ × ℝ)) : Bool :=
  let xi := pij.1.2
  let yi := pij.1.1
  let xj := pij.2.2
  let yj := pij.2.1
  if (Xor' (yi > y) (yj > y)) ∧ x < (xj - xi) * (y - yi) / (yj - yi) + xi then
    !inside
  else inside

/-- `isPointInPolygon`: ray-casting over the edges `(p[i], p[i-1])`, with the
previous index starting at the last vertex. -/
noncomputable def isPointInPolygon (point : Position) (polygon : List (ℝ × ℝ)) : Bool :=
  match polygon with
  | [] => false
  | p :: ps =>
    ((p :: ps).zip ((p :: ps).getLastD p :: (p :: ps).dropLast)).foldl
      (rayCastStep point.longitude point.latitude) false

/-- A zone point from the upstream schema (`x` = longitude, `y` =
latitude). -/
structure ZonePoint where
  x : ℝ
  y : ℝ

/-- A zone as the geofence effect consumes it; the geometry fields are
optional, mirroring the duck-typed response shape. -/
structure Zone where
  name : String
  geometryType : String
  points : Option (List ZonePoint)
  center : Option Position
  radius : Option ℝ

/-- `zone.points.map(point => [point.y, point.x])`. -/
def zoneRing (pts : List ZonePoint) : List (ℝ × ℝ) :=
  pts.map (fun p => (p.y, p.x))

/-- The zone test of the geofence-status effect: a Polygon zone with a
non-empty (truthy) `points` array matches when the ray-cast test succeeds; a
Circle zone with a truthy `center` and truthy `radius` (JavaScript
truthiness: a radius of 0 fails the guard) matches when the Haversine
distance to the center is at most the radius; anything else never
matches. -/
def zoneContains (pos : Position) (z : Zone) : Prop :=
  match z.geometryType, z.points, z.center, z.radius with
  | "Polygon", some pts, _, _ => pts ≠ [] ∧ isPointInPolygon pos (zoneRing pts) = true
  | "Circle", _, some c, some r => r ≠ 0 ∧ calculateDistance pos c ≤ r
  | _, _, _, _ => False

/-- The geofence status displayed by `VehicleMap`. -/
inductive GeofenceStatus where
  | inside (name : String)
  | outside
  | noZones
deriving DecidableEq

open Classical in
/-- The zone loop of the geofence-status effect: first matching zone wins
(the loop `break`s), otherwise "Outside all geofences". -/
noncomputable def evalZonesLoop (pos : Position) : List Zone → GeofenceStatus
  | [] => GeofenceStatus.outside
  | z :: zs =>
    if zoneContains pos z then GeofenceStatus.inside z.name
    else evalZonesLoop pos zs

/-- The geofence-status effect for a known vehicle position: with no zones
loaded the status is the distinguished "no geofences" state, otherwise the
zone loop runs. -/
noncomputable def evaluateGeofence (pos : Position) (zones : List Zone) : GeofenceStatus :=
  if zones.length = 0 then GeofenceStatus.noZones else evalZonesLoop pos zones

/-- The origin position used in the geofence counterexample. -/
def originPos : Position := ⟨0, 0⟩

/-- A Circle zone centered at the origin with radius 0: by the claim's
containment rule it contains its own center (distance 0 ≤ radius 0), but the
code's truthiness guard skips it. -/
def zeroRadiusZone : Zone :=
  { name := "Z", geometryType := "Circle", points := none,
    center := some originPos, radius := some 0 }

/-! ## Theorems -/

/-- C3: the Fuel Efficiency Calculator returns null whenever the odometer
series or the fuel series is empty, and returns null whenever the odometer
delta (last minus first after sorting each series ascending by dateTime) is
zero, regardless of the fuel delta; otherwise it returns a result whose
efficiency equals `(fuelUsed / (distance_m / 1000)) * 100` in L/100km and
whose distance equals the odometer delta divided by 1000.  Zero distance is
absorbed by the guard before any division takes place. -/
theorem calculateFuelEfficiency_spec (odo fuel : List Sample) (hours : ℚ) :
    ((odo = [] ∨ fuel = []) → calculateFuelEfficiency odo fuel hours = none) ∧
    (seriesDelta odo = 0 → calculateFuelEfficiency odo fuel hours = none) ∧
    (seriesDelta odo ≠ 0 → odo ≠ [] → fuel ≠ [] →
      calculateFuelEfficiency odo fuel hours =
        some ⟨(seriesDelta fuel / (seriesDelta odo / 1000)) * 100,
              seriesDelta odo / 1000, seriesDelta fuel, hours⟩) := by
  refine ⟨?_, ?_, ?_⟩
  · rintro (h | h) <;> simp [calculateFuelEfficiency, h]
  · intro hd
    by_cases ho : odo = []
    · simp [calculateFuelEfficiency, ho]
    by_cases hf : fuel = []
    · simp [calculateFuelEfficiency, hf]
    · simp only [calculateFuelEfficiency, List.length_eq_zero, ho, hf, or_self, if_false]
      exact if_pos hd
  · intro hd ho hf
    simp only [calculateFuelEfficiency, List.length_eq_zero, ho, hf, or_self, if_false]
    exact if_neg hd

/-- Witness for C3 at the spec's own example: 10 km and 1 L give
10 L/100km. -/
theorem calculateFuelEfficiency_spec_witness :
    odoSeriesW ≠ [] ∧ fuelSeriesW ≠ [] ∧ seriesDelta odoSeriesW ≠ 0 ∧
    calculateFuelEfficiency odoSeriesW fuelSeriesW 24 = some ⟨10, 10, 1, 24⟩ := by
  have hd : seriesDelta odoSeriesW = 10000 := by
    norm_num [seriesDelta, sortAscBy, List.insertionSort, List.orderedInsert, odoSeriesW,
      sampleVal]
  have hf : seriesDelta fuelSeriesW = 1 := by
    norm_num [seriesDelta, sortAscBy, List.insertionSort, List.orderedInsert, fuelSeriesW,
      sampleVal]
  refine ⟨by decide, by decide, by rw [hd]; norm_num, ?_⟩
  rw [(calculateFuelEfficiency_spec odoSeriesW fuelSeriesW 24).2.2
      (by rw [hd]; norm_num) (by decide) (by decide), hd, hf]
  norm_num


/-- A candidate whose series is empty or whose latest sample is null leaves
the fuel snapshot untouched. -/
theorem fuelStep_of_latest_none (res : String → List Sample) (fd : FuelData) (diagId : String)
    (h : latestReadingData (res diagId) = none) : fuelStep res fd diagId = fd := by
  unfold latestReadingData at h
  unfold fuelStep
  rcases hh : (sortDescBy (fun s => s.dateTime) (res diagId)).head? with _ | s
  · rw [hh]
  · rw [hh] at h ⊢
    simp only [Option.some_bind] at h
    dsimp only
    rw [h]

/-- A total-fuel candidate with a non-null latest reading overwrites the
`totalFuel` slot. -/
theorem fuelStep_totalFuel_of_hit (res : String → List Sample) (fd : FuelData) (diagId : String)
    (v : ℚ) (hp : isTotalFuelDiag diagId = true)
    (h : latestReadingData (res diagId) = some v) :
    (fuelStep res fd diagId).totalFuel = some v := by
  unfold latestReadingData at h
  unfold fuelStep
  rcases hh : (sortDescBy (fun s => s.dateTime) (res diagId)).head? with _ | s
  · rw [hh] at h; simp at h
  · rw [hh] at h ⊢
    simp only [Option.some_bind] at h
    dsimp only
    rw [h]
    simp [hp]

/-- A candidate that is not total-fuel-like never changes `totalFuel`. -/
theorem fuelStep_totalFuel_of_miss (res : String → List Sample) (fd : FuelData) (diagId : String)
    (hp : isTotalFuelDiag diagId = false) :
    (fuelStep res fd diagId).totalFuel = fd.totalFuel := by
  unfold fuelStep
  rcases hh : (sortDescBy (fun s => s.dateTime) (res diagId)).head? with _ | s
  · rw [hh]
  · rw [hh]
    dsimp only
    rcases hd : s.data with _ | v
    · rfl
    · by_cases hl : isFuelLevelDiag diagId = true
      · simp [hp, hl]
      · simp [hp, hl]

/-- A fuel-level candidate (not total-fuel-like) with a non-null latest
reading overwrites the `fuelLevel` slot. -/
theorem fuelStep_fuelLevel_of_hit (res : String → List Sample) (fd : FuelData) (diagId : String)
    (v : ℚ) (hp : (!isTotalFuelDiag diagId && isFuelLevelDiag diagId) = true)
    (h : latestReadingData (res diagId) = some v) :
    (fuelStep res fd diagId).fuelLevel = some v := by
  simp only [Bool.and_eq_true, Bool.not_eq_true'] at hp
  unfold latestReadingData at h
  unfold fuelStep
  rcases hh : (sortDescBy (fun s => s.dateTime) (res diagId)).head? with _ | s
  · rw [hh] at h; simp at h
  · rw [hh] at h ⊢
    simp only [Option.some_bind] at h
    dsimp only
    rw [h]
    simp [hp.1, hp.2]

/-- A candidate that does not reach the fuel-level branch never changes
`fuelLevel`. -/
theorem fuelStep_fuelLevel_of_miss (res : String → List Sample) (fd : FuelData) (diagId : String)
    (hp : (!isTotalFuelDiag diagId && isFuelLevelDiag diagId) = false) :
    (fuelStep res fd diagId).fuelLevel = fd.fuelLevel := by
  unfold fuelStep
  rcases hh : (sortDescBy (fun s => s.dateTime) (res diagId)).head? with _ | s
  · rw [hh]
  · rw [hh]
    dsimp only
    rcases hd : s.data with _ | v
    · rfl
    · cases ht : isTotalFuelDiag diagId
      · have hl : isFuelLevelDiag diagId = false := by
          rw [ht] at hp; simpa using hp
        simp [ht, hl]
      · simp [ht]



/-- Peeling the head off a value list shifts the fallback of the
last-value selector. -/
theorem getLast?_elim_cons (v : ℚ) (b : Option ℚ) (l : List ℚ) :
    (v :: l).getLast?.elim b some = l.getLast?.elim (some v) some := by
  induction l generalizing v b with
  | nil => rfl
  | cons w t ih =>
    rw [List.getLast?_cons_cons]
    rw [ih w b, ih w (some v)]

/-- The fuel candidate fold leaves a slot at the value contributed by the
LAST matching candidate with a non-null latest reading (or the initial
value when no candidate matches). -/
theorem foldl_fuelStep_slot (res : String → List Sample) (proj : FuelData → Option ℚ)
    (pred : String → Bool)
    (hhit : ∀ fd diagId v, pred diagId = true → latestReadingData (res diagId) = some v →
      proj (fuelStep res fd diagId) = some v)
    (hmiss : ∀ fd diagId, pred diagId = false → proj (fuelStep res fd diagId) = proj fd) :
    ∀ (ids : List String) (fd : FuelData),
      proj (ids.foldl (fuelStep res) fd) =
        ((slotValues res pred ids).getLast?).elim (proj fd) some := by
  intro ids
  induction ids with
  | nil => intro fd; rfl
  | cons diagId rest ih =>
    intro fd
    rw [List.foldl_cons, ih]
    unfold slotValues
    cases hp : pred diagId with
    | false =>
      have hnone : (if pred diagId = true then latestReadingData (res diagId) else none) = none := by
        simp [hp]
      rw [List.filterMap_cons, hnone, hmiss fd diagId hp]
    | true =>
      cases hv : latestReadingData (res diagId) with
      | none =>
        have hnone : (if pred diagId = true then latestReadingData (res diagId) else none) = none := by
          simp [hp, hv]
        rw [List.filterMap_cons, hnone, fuelStep_of_latest_none res fd diagId hv]
      | some v =>
        have hsome : (if pred diagId = true then latestReadingData (res diagId) else none) = some v := by
          simp [hp, hv]
        rw [List.filterMap_cons, hsome, hhit fd diagId v hp hv, getLast?_elim_cons]

/-- C1 (amended): in fuel resolution each slot of the returned snapshot
holds the value of the LAST candidate (in the fixed candidate order) whose
latest reading is non-null and whose identifier matches that slot by
substring — later matching candidates overwrite earlier ones; a slot is
null only when no candidate matches it. -/
theorem fetchFuelConsumption_slots (res : String → List Sample) :
    (fetchFuelConsumption res).totalFuel =
      (slotValues res isTotalFuelDiag fuelDiagnostics).getLast? ∧
    (fetchFuelConsumption res).fuelLevel =
      (slotValues res (fun diagId => !isTotalFuelDiag diagId && isFuelLevelDiag diagId)
        fuelDiagnostics).getLast? := by
  constructor
  · rw [fetchFuelConsumption,
      foldl_fuelStep_slot res (fun fd => fd.totalFuel) isTotalFuelDiag
        (fun fd diagId v hp hv => fuelStep_totalFuel_of_hit res fd diagId v hp hv)
        (fun fd diagId hp => fuelStep_totalFuel_of_miss res fd diagId hp)
        fuelDiagnostics ⟨none, none, none⟩]
    cases (slotValues res isTotalFuelDiag fuelDiagnostics).getLast? <;> rfl
  · rw [fetchFuelConsumption,
      foldl_fuelStep_slot res (fun fd => fd.fuelLevel)
        (fun diagId => !isTotalFuelDiag diagId && isFuelLevelDiag diagId)
        (fun fd diagId v hp hv => fuelStep_fuelLevel_of_hit res fd diagId v hp hv)
        (fun fd diagId hp => fuelStep_fuelLevel_of_miss res fd diagId hp)
        fuelDiagnostics ⟨none, none, none⟩]
    cases (slotValues res
      (fun diagId => !isTotalFuelDiag diagId && isFuelLevelDiag diagId) fuelDiagnostics).getLast?
      <;> rfl

/-- Counterexample to C1 as stated: the first total-fuel candidate
(`DiagnosticDeviceTotalFuelId`) resolves to 10, yet the returned snapshot's
`totalFuel` is 20, taken from the later candidate `DiagnosticFuelUsedId` —
the already-populated slot was overwritten. -/
theorem fetchFuelConsumption_counterexample :
    latestReadingData (fuelEnv "DiagnosticDeviceTotalFuelId") = some 10 ∧
    isTotalFuelDiag "DiagnosticDeviceTotalFuelId" = true ∧
    isTotalFuelDiag "DiagnosticFuelUsedId" = true ∧
    (fetchFuelConsumption fuelEnv).totalFuel = some 20 ∧
    ¬ (fetchFuelConsumption fuelEnv).totalFuel = some 10 := by
  exact ⟨by decide, by decide, by decide, by decide, by decide⟩



/-- The odometer loop returns the first candidate value whose sorted
series has a non-null latest sample. -/
theorem odoLoop_value (res : String → List Sample) :
    ∀ ids : List String,
      (odoLoop res ids).1 = (ids.filterMap (fun diagId => latestReadingData (res diagId))).head? := by
  intro ids
  induction ids with
  | nil => rfl
  | cons diagId rest ih =>
    rw [List.filterMap_cons]
    cases hv : latestReadingData (res diagId) with
    | none =>
      unfold odoLoop
      rw [hv]
      exact ih
    | some d =>
      unfold odoLoop
      rw [hv]
      rfl

/-- The odometer loop queries exactly the failing candidates followed by
the first hit (and nothing after it). -/
theorem odoLoop_trace (res : String → List Sample) :
    ∀ ids : List String,
      (odoLoop res ids).2 =
        ids.takeWhile (fun diagId => (latestReadingData (res diagId)).isNone) ++
        (ids.dropWhile (fun diagId => (latestReadingData (res diagId)).isNone)).take 1 := by
  intro ids
  induction ids with
  | nil => rfl
  | cons diagId rest ih =>
    rw [List.takeWhile_cons, List.dropWhile_cons]
    cases hv : latestReadingData (res diagId) with
    | none =>
      unfold odoLoop
      rw [hv]
      simp only [hv, Option.isNone_none, if_true, List.cons_append]
      rw [ih]
    | some d =>
      unfold odoLoop
      rw [hv]
      simp [hv]

/-- C2 (amended): the Diagnostic Resolver iterates its candidates in
priority order; for each candidate it sorts the series descending by
dateTime and examines only the first (latest) sample: if that sample's data
is non-null it is returned immediately, without querying the remaining
candidates, and otherwise the candidate is skipped entirely (earlier
samples of the same candidate are never consulted); if every candidate's
latest sample is null or missing, null is returned.  In particular, for
candidates [A, B] where A's latest sample has non-null data, A's value is
returned and B is never queried. -/
theorem fetchOdometer_resolution (res : String → List Sample) :
    (fetchOdometer res).1 =
      (odometerDiagnostics.filterMap (fun diagId => latestReadingData (res diagId))).head? ∧
    (fetchOdometer res).2 =
      odometerDiagnostics.takeWhile (fun diagId => (latestReadingData (res diagId)).isNone) ++
      (odometerDiagnostics.dropWhile (fun diagId => (latestReadingData (res diagId)).isNone)).take 1 ∧
    (∀ a : ℚ, latestReadingData (res "DiagnosticOdometerId") = some a →
      (fetchOdometer res).1 = some a ∧
      "DiagnosticOBDOdometerReaderId" ∉ (fetchOdometer res).2) := by
  refine ⟨odoLoop_value res odometerDiagnostics, odoLoop_trace res odometerDiagnostics, ?_⟩
  intro a ha
  have hstep : odoLoop res odometerDiagnostics = (some a, ["DiagnosticOdometerId"]) := by
    unfold odometerDiagnostics
    unfold odoLoop
    rw [ha]
  constructor
  · show (odoLoop res odometerDiagnostics).1 = some a
    rw [hstep]
  · show ¬ "DiagnosticOBDOdometerReaderId" ∈ (odoLoop res odometerDiagnostics).2
    rw [hstep]
    show ¬ "DiagnosticOBDOdometerReaderId" ∈ ["DiagnosticOdometerId"]
    decide

/-- Counterexample to C2 as stated: the first candidate's sorted series
contains a non-null sample (value 5), but because its latest sample's data
is null the resolver skips the candidate and returns null instead of 5. -/
theorem fetchOdometer_counterexample :
    (sortDescBy (fun s => s.dateTime) (odoNullLatestEnv "DiagnosticOdometerId")).filterMap
        (fun s => s.data) = [(5 : ℚ)] ∧
    (fetchOdometer odoNullLatestEnv).1 = none := ⟨by decide, by decide⟩

/-- Witness for C2 (amended): both of the first two candidates have
non-null data; the first one's value is returned and the second is never
queried. -/
theorem fetchOdometer_witness :
    latestReadingData (odoBothEnv "DiagnosticOdometerId") = some 777 ∧
    latestReadingData (odoBothEnv "DiagnosticOBDOdometerReaderId") = some 111 ∧
    (fetchOdometer odoBothEnv).1 = some 777 ∧
    "DiagnosticOBDOdometerReaderId" ∉ (fetchOdometer odoBothEnv).2 := by
  have h := (fetchOdometer_resolution odoBothEnv).2.2 777 (by decide)
  exact ⟨by decide, by decide, h.1, h.2⟩



/-- The ray-crossing abscissa of the edge from `p` to `q` is the same
whichever endpoint plays the role of the current vertex. -/
theorem rayCast_threshold_symm (y : ℝ) (p q : ℝ × ℝ) (hne : p.1 ≠ q.1) :
    (q.2 - p.2) * (y - p.1) / (q.1 - p.1) + p.2 =
      (p.2 - q.2) * (y - q.1) / (p.1 - q.1) + q.2 := by
  have h1 : q.1 - p.1 ≠ 0 := sub_ne_zero.mpr (Ne.symm hne)
  have h2 : p.1 - q.1 ≠ 0 := sub_ne_zero.mpr hne
  field_simp
  ring

/-- The ray-cast toggle condition for the directed edge `(p, q)` implies
the one for `(q, p)`. -/
theorem rayCast_cond_symm (x y : ℝ) (p q : ℝ × ℝ)
    (h : Xor' (p.1 > y) (q.1 > y) ∧ x < (q.2 - p.2) * (y - p.1) / (q.1 - p.1) + p.2) :
    Xor' (q.1 > y) (p.1 > y) ∧ x < (p.2 - q.2) * (y - q.1) / (p.1 - q.1) + q.2 := by
  have hne : p.1 ≠ q.1 := by
    intro he
    rw [he] at h
    simp at h
  refine ⟨(xor_comm _ _) ▸ h.1, ?_⟩
  rw [← rayCast_threshold_symm y p q hne]
  exact h.2

/-- C9: for every point and every ring of length strictly less than 3,
the point-in-polygon test returns false: the empty ring has no edges, a
one-vertex ring yields a degenerate edge that never toggles, and the two
directed edges of a two-vertex ring toggle identically and cancel. -/
theorem isPointInPolygon_short_ring (point : Position) (polygon : List (ℝ × ℝ))
    (h : polygon.length < 3) : isPointInPolygon point polygon = false := by
  rcases polygon with _ | ⟨p, _ | ⟨q, _ | ⟨r, t⟩⟩⟩
  · rfl
  · show rayCastStep point.longitude point.latitude false (p, p) = false
    simp [rayCastStep]
  · show rayCastStep point.longitude point.latitude
      (rayCastStep point.longitude point.latitude false (p, q)) (q, p) = false
    by_cases hA : Xor' (p.1 > point.latitude) (q.1 > point.latitude) ∧
        point.longitude <
          (q.2 - p.2) * (point.latitude - p.1) / (q.1 - p.1) + p.2
    · have hB := rayCast_cond_symm point.longitude point.latitude p q hA
      simp only [rayCastStep, if_pos hA, if_pos hB, Bool.not_not]
    · have hB : ¬ (Xor' (q.1 > point.latitude) (p.1 > point.latitude) ∧
          point.longitude <
            (p.2 - q.2) * (point.latitude - q.1) / (p.1 - q.1) + q.2) :=
        fun hB => hA (rayCast_cond_symm point.longitude point.latitude q p hB)
      simp only [rayCastStep, if_neg hA, if_neg hB]
  · exfalso
    simp [List.length_cons] at h
    omega

/-- Witness for C9 on a concrete two-vertex ring. -/
theorem isPointInPolygon_short_ring_witness :
    ([((0 : ℝ), (0 : ℝ)), ((1 : ℝ), (1 : ℝ))] : List (ℝ × ℝ)).length < 3 ∧
    isPointInPolygon originPos [((0 : ℝ), (0 : ℝ)), ((1 : ℝ), (1 : ℝ))] = false :=
  ⟨by simp, isPointInPolygon_short_ring originPos _ (by simp)⟩



/-- The zone loop reports Outside when no zone test matches. -/
theorem evalZonesLoop_of_none (pos : Position) :
    ∀ zones : List Zone, (∀ z ∈ zones, ¬ zoneContains pos z) →
      evalZonesLoop pos zones = GeofenceStatus.outside := by
  intro zones
  induction zones with
  | nil => intro _; rfl
  | cons z zs ih =>
    intro hall
    unfold evalZonesLoop
    rw [if_neg (hall z (List.mem_cons_self z zs))]
    exact ih (fun z' hz' => hall z' (List.mem_cons_of_mem z hz'))

/-- The zone loop reports the first matching zone of the list. -/
theorem evalZonesLoop_first_match (pos : Position) :
    ∀ (pre : List Zone) (z : Zone) (post : List Zone),
      (∀ z' ∈ pre, ¬ zoneContains pos z') → zoneContains pos z →
      evalZonesLoop pos (pre ++ z :: post) = GeofenceStatus.inside z.name := by
  intro pre
  induction pre with
  | nil =>
    intro z post _ hz
    rw [List.nil_append]
    unfold evalZonesLoop
    rw [if_pos hz]
  | cons w ws ih =>
    intro z post hall hz
    rw [List.cons_append]
    unfold evalZonesLoop
    rw [if_neg (hall w (List.mem_cons_self w ws))]
    exact ih z post (fun z' hz' => hall z' (List.mem_cons_of_mem w hz')) hz

/-- The code's truthiness guard rejects a radius-0 circle zone, so it can
never match. -/
theorem zeroRadiusZone_not_contains : ¬ zoneContains originPos zeroRadiusZone := by
  have he : zoneContains originPos zeroRadiusZone =
      ((0 : ℝ) ≠ 0 ∧ calculateDistance originPos originPos ≤ 0) := rfl
  rw [he]
  simp

/-- The Haversine distance from the origin to itself is exactly 0. -/
theorem calculateDistance_origin_self : calculateDistance originPos originPos = 0 := by
  norm_num [calculateDistance, atan2, originPos, Real.sin_zero, Real.cos_zero,
    Real.sqrt_zero, Real.sqrt_one, Real.arctan_zero]

/-- C4 (amended): with a non-empty zone list the Geofence Evaluator
returns the first zone in input order whose (code-level) containment test
matches, stopping there, and Outside when none matches; a Circle zone with
nonzero radius contains the position exactly when the great-circle distance
to its center is at most the radius (boundary inclusive) — a radius of 0,
being falsy, makes the zone unevaluatable and it is skipped. -/
theorem evaluateGeofence_first_match (pos : Position) (zones : List Zone) (h : zones ≠ []) :
    ((∀ z ∈ zones, ¬ zoneContains pos z) →
      evaluateGeofence pos zones = GeofenceStatus.outside) ∧
    (∀ (pre : List Zone) (z : Zone) (post : List Zone), zones = pre ++ z :: post →
      zoneContains pos z → (∀ z' ∈ pre, ¬ zoneContains pos z') →
      evaluateGeofence pos zones = GeofenceStatus.inside z.name) ∧
    (∀ (nm : String) (pts : Option (List ZonePoint)) (c : Position) (r : ℝ), r ≠ 0 →
      (zoneContains pos
          { name := nm, geometryType := "Circle", points := pts,
            center := some c, radius := some r } ↔
        calculateDistance pos c ≤ r)) := by
  have hlen : ¬ zones.length = 0 := by
    intro h0
    exact h (List.length_eq_zero.mp h0)
  refine ⟨?_, ?_, ?_⟩
  · intro hall
    unfold evaluateGeofence
    rw [if_neg hlen]
    exact evalZonesLoop_of_none pos zones hall
  · intro pre z post heq hz hall
    unfold evaluateGeofence
    rw [if_neg hlen, heq]
    exact evalZonesLoop_first_match pos pre z post hall hz
  · intro nm pts c r hr
    cases pts with
    | none =>
      have he : zoneContains pos
          { name := nm, geometryType := "Circle", points := none,
            center := some c, radius := some r } =
          (r ≠ 0 ∧ calculateDistance pos c ≤ r) := rfl
      rw [he]
      simp [hr]
    | some l =>
      have he : zoneContains pos
          { name := nm, geometryType := "Circle", points := some l,
            center := some c, radius := some r } =
          (r ≠ 0 ∧ calculateDistance pos c ≤ r) := rfl
      rw [he]
      simp [hr]

/-- Witness for C4 (amended) on a concrete one-zone list none of whose
zones match. -/
theorem evaluateGeofence_witness :
    ([zeroRadiusZone] : List Zone) ≠ [] ∧
    evaluateGeofence originPos [zeroRadiusZone] = GeofenceStatus.outside := by
  refine ⟨by simp, ?_⟩
  refine (evaluateGeofence_first_match originPos [zeroRadiusZone] (by simp)).1 ?_
  intro z hz
  rw [List.mem_singleton] at hz
  rw [hz]
  exact zeroRadiusZone_not_contains

/-- Counterexample to C4 as stated: a Circle zone of radius 0 centered at
the queried position satisfies the claim's containment rule (distance 0 ≤
radius 0, boundary inclusive), yet the evaluator reports Outside because
the zero radius fails the truthiness guard. -/
theorem evaluateGeofence_zero_radius_counterexample :
    calculateDistance originPos originPos ≤ (0 : ℝ) ∧
    evaluateGeofence originPos [zeroRadiusZone] = GeofenceStatus.outside := by
  constructor
  · rw [calculateDistance_origin_self]
  · unfold evaluateGeofence
    rw [if_neg (by simp)]
    unfold evalZonesLoop
    rw [if_neg zeroRadiusZone_not_contains]
    rfl



/-- A freshly created group updated with its first event satisfies the
group invariant. -/
theorem groupOK_init (k : String) (f : FaultEvent) : GroupOK (updateGroup (initGroup k f) f) := by
  unfold GroupOK updateGroup initGroup
  by_cases hs : f.faultState = some "Active" <;>
    simp [hs, toInstance]

/-- The per-event group mutation preserves the group invariant. -/
theorem groupOK_update (g : FaultGroup) (f : FaultEvent) (h : GroupOK g) :
    GroupOK (updateGroup g f) := by
  obtain ⟨h1, h2, ⟨iw, hiw, hiweq⟩, h5, ⟨jw, hjw, hjweq⟩, h7, h8, h9⟩ := h
  unfold updateGroup
  refine ⟨?_, ?_, ?_, ?_, ?_, ?_, ?_, ?_⟩
  · by_cases hs : f.faultState = some "Active" <;> simp [hs] <;> omega
  · simp [h2]
  · by_cases hd : g.mostRecentDate < f.dateTime
    · exact ⟨toInstance f, by simp [hd], by simp [hd, toInstance]⟩
    · exact ⟨iw, by simp [hiw], by simp [hd, hiweq]⟩
  · intro i hi
    rw [List.mem_append] at hi
    rcases hi with hi | hi
    · by_cases hd : g.mostRecentDate < f.dateTime
      · simp only [if_pos hd]
        exact (lt_of_le_of_lt (h5 i hi) hd).le
      · simp only [if_neg hd]
        exact h5 i hi
    · rw [List.mem_singleton] at hi
      subst hi
      by_cases hd : g.mostRecentDate < f.dateTime
      · simp [hd, toInstance]
      · simp only [if_neg hd, toInstance]
        exact le_of_not_lt hd
  · by_cases hd : f.dateTime < g.oldestDate
    · exact ⟨toInstance f, by simp, by simp [hd, toInstance]⟩
    · exact ⟨jw, by simp [hjw], by simp [hd, hjweq]⟩
  · intro i hi
    rw [List.mem_append] at hi
    rcases hi with hi | hi
    · by_cases hd : f.dateTime < g.oldestDate
      · simp only [if_pos hd]
        exact le_trans hd.le (h7 i hi)
      · simp only [if_neg hd]
        exact h7 i hi
    · rw [List.mem_singleton] at hi
      subst hi
      by_cases hd : f.dateTime < g.oldestDate
      · simp [hd, toInstance]
      · simp only [if_neg hd, toInstance]
        exact h7 _ hjw |>.trans (hjweq ▸ le_of_not_lt hd)
  · by_cases hs : f.faultState = some "Active" <;>
      simp [hs, List.filter_append, toInstance, h8]
  · by_cases hs : f.faultState = some "Active" <;>
      simp [hs, List.filter_append, toInstance, h9]



/-- Processing one event preserves the invariant of every accumulated
group. -/
theorem addFault_groups_ok (f : FaultEvent) :
    ∀ acc : List (String × FaultGroup), (∀ p ∈ acc, GroupOK p.2) →
      ∀ p ∈ addFault f acc, GroupOK p.2 := by
  intro acc
  induction acc with
  | nil =>
    intro _ p hp
    rw [addFault, List.mem_singleton] at hp
    subst hp
    exact groupOK_init _ f
  | cons kg rest ih =>
    intro hacc p hp
    rcases kg with ⟨k, g⟩
    rw [addFault] at hp
    by_cases hk : k = diagnosticKey f
    · rw [if_pos hk] at hp
      rcases List.mem_cons.mp hp with hp | hp
      · subst hp
        exact groupOK_update g f (hacc (k, g) (List.mem_cons_self _ _))
      · exact hacc p (List.mem_cons_of_mem _ hp)
    · rw [if_neg hk] at hp
      rcases List.mem_cons.mp hp with hp | hp
      · subst hp
        exact hacc (k, g) (List.mem_cons_self _ _)
      · exact ih (fun q hq => hacc q (List.mem_cons_of_mem _ hq)) p hp

/-- The whole accumulation fold preserves the group invariant. -/
theorem foldl_addFault_groups_ok :
    ∀ (faults : List FaultEvent) (acc : List (String × FaultGroup)),
      (∀ p ∈ acc, GroupOK p.2) →
      ∀ p ∈ faults.foldl (fun acc f => addFault f acc) acc, GroupOK p.2 := by
  intro faults
  induction faults with
  | nil => intro acc hacc; exact hacc
  | cons f rest ih =>
    intro acc hacc
    rw [List.foldl_cons]
    exact ih (addFault f acc) (addFault_groups_ok f acc hacc)

/-- Every group produced by the Fault Aggregator satisfies the group
invariant. -/
theorem groupFaults_groups_ok (faults : List FaultEvent) :
    ∀ g ∈ groupFaultsByDiagnostic faults, GroupOK g := by
  intro g hg
  unfold groupFaultsByDiagnostic sortDescBy at hg
  rw [List.mem_insertionSort] at hg
  rcases List.mem_map.mp hg with ⟨p, hp, hpe⟩
  exact hpe ▸ foldl_addFault_groups_ok faults [] (by simp) p hp

/-- Processing one event appends exactly its instance to the accumulated
instances, up to permutation. -/
theorem addFault_flatten (f : FaultEvent) :
    ∀ acc : List (String × FaultGroup),
      (((addFault f acc).map Prod.snd).flatMap (fun g => g.faultInstances)).Perm
        (((acc.map Prod.snd).flatMap (fun g => g.faultInstances)) ++ [toInstance f]) := by
  intro acc
  induction acc with
  | nil =>
    simp [addFault, updateGroup, initGroup]
  | cons kg rest ih =>
    rcases kg with ⟨k, g⟩
    rw [addFault]
    by_cases hk : k = diagnosticKey f
    · rw [if_pos hk]
      simp only [List.map_cons, List.flatMap_cons]
      unfold updateGroup
      simp only [List.append_assoc, List.singleton_append]
      exact List.Perm.append_left g.faultInstances
        (@List.perm_append_comm _ [toInstance f] _)
    · rw [if_neg hk]
      simp only [List.map_cons, List.flatMap_cons]
      refine ((ih.append_left g.faultInstances)).trans ?_
      rw [← List.append_assoc]

/-- The accumulation fold preserves the multiset of stored instances:
the flattened groups are the processed events, up to permutation. -/
theorem foldl_addFault_flatten :
    ∀ (faults : List FaultEvent) (acc : List (String × FaultGroup)),
      ((((faults.foldl (fun acc f => addFault f acc) acc)).map Prod.snd).flatMap
          (fun g => g.faultInstances)).Perm
        (((acc.map Prod.snd).flatMap (fun g => g.faultInstances)) ++ faults.map toInstance) := by
  intro faults
  induction faults with
  | nil => intro acc; simp
  | cons f rest ih =>
    intro acc
    rw [List.foldl_cons]
    refine (ih (addFault f acc)).trans ?_
    refine ((addFault_flatten f acc).append_right (rest.map toInstance)).trans ?_
    rw [List.append_assoc, List.singleton_append, List.map_cons]



/-- C5: for every FaultGroup produced by the Fault Aggregator from any
event sequence, count = activeFaults + inactiveFaults = number of stored
instances, mostRecentDate is the maximum instance dateTime and oldestDate
the minimum (stated as: attained and bounding); the returned groups are
sorted descending by mostRecentDate; and flattening all groups' instances
reproduces every input event exactly once (as its stored projection), with
none dropped or duplicated. -/
theorem groupFaultsByDiagnostic_invariants (faults : List FaultEvent) :
    (∀ g ∈ groupFaultsByDiagnostic faults,
      g.count = g.activeFaults + g.inactiveFaults ∧
      g.count = g.faultInstances.length ∧
      (∃ i ∈ g.faultInstances, i.dateTime = g.mostRecentDate) ∧
      (∀ i ∈ g.faultInstances, i.dateTime ≤ g.mostRecentDate) ∧
      (∃ i ∈ g.faultInstances, i.dateTime = g.oldestDate) ∧
      (∀ i ∈ g.faultInstances, g.oldestDate ≤ i.dateTime)) ∧
    List.Pairwise (fun a b => b.mostRecentDate ≤ a.mostRecentDate)
      (groupFaultsByDiagnostic faults) ∧
    ((groupFaultsByDiagnostic faults).flatMap (fun g => g.faultInstances)).Perm
      (faults.map toInstance) := by
  refine ⟨?_, ?_, ?_⟩
  · intro g hg
    obtain ⟨h1, h2, h3, h4, h5, h6, _, _⟩ := groupFaults_groups_ok faults g hg
    exact ⟨h1, h2, h3, h4, h5, h6⟩
  · unfold groupFaultsByDiagnostic sortDescBy
    haveI ht : IsTotal FaultGroup (fun a b => b.mostRecentDate ≤ a.mostRecentDate) :=
      ⟨fun a b => le_total _ _⟩
    haveI htr : IsTrans FaultGroup (fun a b => b.mostRecentDate ≤ a.mostRecentDate) :=
      ⟨fun _ _ _ hab hbc => le_trans hbc hab⟩
    exact List.sorted_insertionSort _ _
  · have hsort : (groupFaultsByDiagnostic faults).Perm
        ((faults.foldl (fun acc f => addFault f acc) []).map Prod.snd) := by
      unfold groupFaultsByDiagnostic sortDescBy
      exact List.perm_insertionSort _ _
    refine (hsort.flatMap_right (fun g => g.faultInstances)).trans ?_
    have := foldl_addFault_flatten faults []
    simpa using this



/-- C10: in the Fault Aggregator every event whose faultState is not
exactly the string "Active" — including "Inactive", any other string, or a
missing value — is counted in inactiveFaults, the split being exhaustive:
activeFaults counts exactly the instances with faultState "Active",
inactiveFaults exactly all the others, and count is their sum, for every
input sequence. -/
theorem groupFaultsByDiagnostic_split (faults : List FaultEvent) :
    ∀ g ∈ groupFaultsByDiagnostic faults,
      g.activeFaults =
        (g.faultInstances.filter (fun i => i.faultState = some "Active")).length ∧
      g.inactiveFaults =
        (g.faultInstances.filter (fun i => ¬ i.faultState = some "Active")).length ∧
      g.count = g.activeFaults + g.inactiveFaults := by
  intro g hg
  obtain ⟨h1, _, _, _, _, _, h8, h9⟩ := groupFaults_groups_ok faults g hg
  exact ⟨h8, h9, h1⟩

/-- Witness for C5 on a concrete three-event history. -/
theorem groupFaultsByDiagnostic_invariants_witness :
    (⟨"EngineTemp", some "D1", none, 2, 1, 1, 10, 5,
        [⟨"a", 10, some "Active"⟩, ⟨"b", 5, some "Pending"⟩]⟩ : FaultGroup) ∈
      groupFaultsByDiagnostic faultEventsW ∧
    (2 : Nat) = 1 + 1 := by
  have hm : (⟨"EngineTemp", some "D1", none, 2, 1, 1, 10, 5,
      [⟨"a", 10, some "Active"⟩, ⟨"b", 5, some "Pending"⟩]⟩ : FaultGroup) ∈
      groupFaultsByDiagnostic faultEventsW := by decide
  exact ⟨hm, ((groupFaultsByDiagnostic_invariants faultEventsW).1 _ hm).1⟩

/-- Witness for C10 on a group whose only instance has a missing
faultState (counted as inactive). -/
theorem groupFaultsByDiagnostic_split_witness :
    (⟨"Unknown", none, none, 1, 0, 1, 7, 7, [⟨"c", 7, none⟩]⟩ : FaultGroup) ∈
      groupFaultsByDiagnostic faultEventsW ∧
    (1 : Nat) = ([(⟨"c", 7, none⟩ : FaultInstance)].filter
      (fun i => ¬ i.faultState = some "Active")).length := by
  have hm : (⟨"Unknown", none, none, 1, 0, 1, 7, 7, [⟨"c", 7, none⟩]⟩ : FaultGroup) ∈
      groupFaultsByDiagnostic faultEventsW := by decide
  exact ⟨hm, ((groupFaultsByDiagnostic_split faultEventsW) _ hm).2.1⟩



/-- Lookup after a single get-or-create-and-overwrite step. -/
theorem alookup_upsertAxis (upd : ℚ → AccRec → AccRec) (r : Sample) (t : Nat) :
    ∀ m : List (Nat × AccRec),
      alookup t (upsertAxis upd r m) =
        if t = r.dateTime then
          some (upd (r.data.getD 0) ((alookup t m).getD (blankRec t)))
        else alookup t m := by
  intro m
  induction m with
  | nil =>
    by_cases ht : t = r.dateTime
    · subst ht
      simp [upsertAxis, alookup]
    · have h2 : ¬ r.dateTime = t := fun h => ht h.symm
      simp [upsertAxis, alookup, ht, h2]
  | cons ka rest ih =>
    rcases ka with ⟨k, a⟩
    by_cases hk : k = r.dateTime <;> by_cases ht : t = r.dateTime
    · have hkt : k = t := by rw [hk, ht]
      simp [upsertAxis, alookup, hk, ht, hkt]
    · have hkt : ¬ k = t := fun h => ht (h ▸ hk)
      have h2 : ¬ r.dateTime = t := fun h => ht h.symm
      simp [upsertAxis, alookup, hk, ht, hkt, h2]
    · have hkt : ¬ k = t := fun h => hk (h.trans ht)
      subst ht
      simp only [upsertAxis, alookup, if_neg hk, if_neg hkt]
      simpa using ih
    · by_cases hkt : k = t
      · simp [upsertAxis, alookup, hk, ht, hkt]
      · simp [upsertAxis, alookup, hk, ht, hkt, ih]

/-- A step adds the reading's timestamp as a new last key exactly when it
was absent. -/
theorem upsertAxis_keys (upd : ℚ → AccRec → AccRec) (r : Sample) :
    ∀ m : List (Nat × AccRec),
      (upsertAxis upd r m).map Prod.fst =
        if r.dateTime ∈ m.map Prod.fst then m.map Prod.fst
        else m.map Prod.fst ++ [r.dateTime] := by
  intro m
  induction m with
  | nil => simp [upsertAxis]
  | cons ka rest ih =>
    rcases ka with ⟨k, a⟩
    by_cases hk : k = r.dateTime
    · have hmem : r.dateTime ∈ ((k, a) :: rest).map Prod.fst := by
        simp [hk.symm]
      simp [upsertAxis, hk, hmem]
    · by_cases hm : r.dateTime ∈ rest.map Prod.fst
      · have hmem : r.dateTime ∈ ((k, a) :: rest).map Prod.fst := by
          simp [hm]
        simp [upsertAxis, hk, hmem, ih, hm]
      · have hmem : ¬ r.dateTime ∈ ((k, a) :: rest).map Prod.fst := by
          simp only [List.map_cons, List.mem_cons]
          push_neg
          exact ⟨fun h => hk h.symm, by simpa using hm⟩
        have h2 : ¬ r.dateTime = k := fun h => hk h.symm
        simp [upsertAxis, hk, hmem, ih, hm, h2]

/-- A step preserves the invariant that each entry's record carries its
own key as dateTime. -/
theorem upsertAxis_entry_dt (upd : ℚ → AccRec → AccRec)
    (hdt : ∀ v a, (upd v a).dateTime = a.dateTime) (r : Sample) :
    ∀ m : List (Nat × AccRec), (∀ p ∈ m, (p.2).dateTime = p.1) →
      ∀ p ∈ upsertAxis upd r m, (p.2).dateTime = p.1 := by
  intro m
  induction m with
  | nil =>
    intro _ p hp
    rw [upsertAxis, List.mem_singleton] at hp
    subst hp
    rw [hdt]
    rfl
  | cons ka rest ih =>
    intro hall p hp
    rcases ka with ⟨k, a⟩
    rw [upsertAxis] at hp
    by_cases hk : k = r.dateTime
    · rw [if_pos hk] at hp
      rcases List.mem_cons.mp hp with hp | hp
      · subst hp
        rw [hdt]
        exact hall (k, a) (List.mem_cons_self _ _)
      · exact hall p (List.mem_cons_of_mem _ hp)
    · rw [if_neg hk] at hp
      rcases List.mem_cons.mp hp with hp | hp
      · subst hp
        exact hall (k, a) (List.mem_cons_self _ _)
      · exact ih (fun q hq => hall q (List.mem_cons_of_mem _ hq)) p hp



/-- A series with no sample at a timestamp contributes the default 0. -/
theorem lastDataAt_of_not_mem (rs : List Sample) (t : Nat) (h : ¬ t ∈ sampleTimes rs) :
    lastDataAt rs t = 0 := by
  unfold lastDataAt
  have hf : rs.reverse.find? (fun s => s.dateTime = t) = none := by
    rw [List.find?_eq_none]
    intro s hs
    simp only [decide_eq_true_eq]
    intro he
    exact h (List.mem_map.mpr ⟨s, List.mem_reverse.mp hs, he⟩)
  rw [hf]
  rfl

/-- The last-sample value ignores an earlier reading when a later part of
the series also hits the timestamp. -/
theorem lastDataAt_cons_of_mem (r : Sample) (rs : List Sample) (t : Nat)
    (h : t ∈ sampleTimes rs) : lastDataAt (r :: rs) t = lastDataAt rs t := by
  unfold lastDataAt
  rw [List.reverse_cons, List.find?_append]
  rcases List.mem_map.mp h with ⟨s, hs, he⟩
  have hsome : (rs.reverse.find? (fun s => s.dateTime = t)).isSome := by
    rw [List.find?_isSome]
    exact ⟨s, List.mem_reverse.mpr hs, by simp [he]⟩
  rcases ho : rs.reverse.find? (fun s => s.dateTime = t) with _ | s'
  · rw [ho] at hsome; simp at hsome
  · rw [ho]
    rfl

/-- The last-sample value of a one-hit head reading. -/
theorem lastDataAt_cons_of_not_mem (r : Sample) (rs : List Sample) (t : Nat)
    (h : ¬ t ∈ sampleTimes rs) :
    lastDataAt (r :: rs) t =
      if r.dateTime = t then r.data.getD 0 else 0 := by
  unfold lastDataAt
  rw [List.reverse_cons, List.find?_append]
  have hf : rs.reverse.find? (fun s => s.dateTime = t) = none := by
    rw [List.find?_eq_none]
    intro s hs
    simp only [decide_eq_true_eq]
    intro he
    exact h (List.mem_map.mpr ⟨s, List.mem_reverse.mp hs, he⟩)
  rw [hf]
  by_cases hr : r.dateTime = t
  · simp [hr]
  · simp [hr]

/-- Folding a whole axis series into the map sets, at every timestamp the
series hits, the axis to the series' last value there (null coerced to 0),
creating default entries as needed, and touches nothing else. -/
theorem alookup_processAxis (upd : ℚ → AccRec → AccRec)
    (hov : ∀ v w a, upd v (upd w a) = upd v a) (t : Nat) :
    ∀ (rs : List Sample) (m : List (Nat × AccRec)),
      alookup t (processAxis upd m rs) =
        if t ∈ sampleTimes rs then
          some (upd (lastDataAt rs t) ((alookup t m).getD (blankRec t)))
        else alookup t m := by
  intro rs
  induction rs with
  | nil =>
    intro m
    simp [processAxis, sampleTimes]
  | cons r rest ih =>
    intro m
    have hstep : processAxis upd m (r :: rest) = processAxis upd (upsertAxis upd r m) rest := rfl
    rw [hstep, ih]
    by_cases hmem : t ∈ sampleTimes rest
    · have hc : t ∈ sampleTimes (r :: rest) := by
        simp only [sampleTimes, List.map_cons, List.mem_cons]
        exact Or.inr hmem
      rw [if_pos hmem, if_pos hc, alookup_upsertAxis, lastDataAt_cons_of_mem r rest t hmem]
      by_cases ht : t = r.dateTime
      · rw [if_pos ht]
        simp only [Option.getD_some]
        rw [hov]
      · rw [if_neg ht]
    · rw [if_neg hmem, alookup_upsertAxis]
      by_cases ht : t = r.dateTime
      · have hc : t ∈ sampleTimes (r :: rest) := by
          simp only [sampleTimes, List.map_cons, List.mem_cons]
          exact Or.inl ht
        rw [if_pos ht, if_pos hc, lastDataAt_cons_of_not_mem r rest t hmem,
          if_pos ht.symm]
      · have hc : ¬ t ∈ sampleTimes (r :: rest) := by
          simp only [sampleTimes, List.map_cons, List.mem_cons]
          push_neg
          exact ⟨ht, by simpa [sampleTimes] using hmem⟩
        rw [if_neg ht, if_neg hc]



/-- The timestamp keys of the readings map remain distinct. -/
theorem processAxis_keys_nodup (upd : ℚ → AccRec → AccRec) :
    ∀ (rs : List Sample) (m : List (Nat × AccRec)),
      (m.map Prod.fst).Nodup → ((processAxis upd m rs).map Prod.fst).Nodup := by
  intro rs
  induction rs with
  | nil => intro m h; exact h
  | cons r rest ih =>
    intro m h
    have hstep : processAxis upd m (r :: rest) = processAxis upd (upsertAxis upd r m) rest := rfl
    rw [hstep]
    refine ih (upsertAxis upd r m) ?_
    rw [upsertAxis_keys]
    by_cases hm : r.dateTime ∈ m.map Prod.fst
    · rw [if_pos hm]; exact h
    · rw [if_neg hm]
      simp [List.nodup_append, h, hm]

/-- Axis processing preserves the key/dateTime coherence of entries. -/
theorem processAxis_entry_dt (upd : ℚ → AccRec → AccRec)
    (hdt : ∀ v a, (upd v a).dateTime = a.dateTime) :
    ∀ (rs : List Sample) (m : List (Nat × AccRec)),
      (∀ p ∈ m, (p.2).dateTime = p.1) →
      ∀ p ∈ processAxis upd m rs, (p.2).dateTime = p.1 := by
  intro rs
  induction rs with
  | nil => intro m h; exact h
  | cons r rest ih =>
    intro m h
    exact ih (upsertAxis upd r m) (upsertAxis_entry_dt upd hdt r m h)

/-- A lookup succeeds exactly for the stored keys. -/
theorem alookup_isSome_iff (t : Nat) :
    ∀ m : List (Nat × AccRec), (alookup t m).isSome ↔ t ∈ m.map Prod.fst := by
  intro m
  induction m with
  | nil => simp [alookup]
  | cons ka rest ih =>
    rcases ka with ⟨k, a⟩
    by_cases hk : k = t
    · simp [alookup, hk]
    · have h2 : ¬ t = k := fun h => hk h.symm
      simp [alookup, hk, h2, ih]

/-- With distinct keys, membership determines the lookup result. -/
theorem alookup_eq_some_of_mem (t : Nat) (a : AccRec) :
    ∀ m : List (Nat × AccRec), (m.map Prod.fst).Nodup → (t, a) ∈ m →
      alookup t m = some a := by
  intro m
  induction m with
  | nil => intro _ h; simp at h
  | cons kb rest ih =>
    intro hnd hmem
    rcases kb with ⟨k, b⟩
    rcases List.mem_cons.mp hmem with he | hmem'
    · rw [Prod.mk.injEq] at he
      unfold alookup
      rw [if_pos he.1.symm, he.2]
    · unfold alookup
      by_cases hk : k = t
      · exfalso
        rw [List.map_cons, List.nodup_cons] at hnd
        exact hnd.1 (hk ▸ List.mem_map.mpr ⟨(t, a), hmem', rfl⟩)
      · rw [if_neg hk]
        rw [List.map_cons, List.nodup_cons] at hnd
        exact ih hnd.2 hmem'

/-- With distinct, coherent keys, each timestamp owns at most one stored
record. -/
theorem count_dateTime_map_snd (t : Nat) :
    ∀ m : List (Nat × AccRec), (m.map Prod.fst).Nodup →
      (∀ p ∈ m, (p.2).dateTime = p.1) →
      ((m.map Prod.snd).filter (fun a => a.dateTime = t)).length =
        if t ∈ m.map Prod.fst then 1 else 0 := by
  intro m
  induction m with
  | nil => intro _ _; simp
  | cons ka rest ih =>
    intro hnd hdt
    rcases ka with ⟨k, a⟩
    rw [List.map_cons, List.nodup_cons] at hnd
    have hak : a.dateTime = k := hdt (k, a) (List.mem_cons_self _ _)
    have hrest := ih hnd.2 (fun p hp => hdt p (List.mem_cons_of_mem _ hp))
    rw [List.map_cons, List.map_cons, List.filter_cons]
    by_cases hk : k = t
    · rw [if_pos (by simp [hak, hk]), if_pos (by rw [List.mem_cons]; exact Or.inl hk.symm)]
      rw [List.length_cons, hrest,
        if_neg (fun hm => hnd.1 (by rw [hk]; exact hm))]
    · rw [if_neg (by simp [hak, hk]), hrest]
      by_cases hm : t ∈ rest.map Prod.fst
      · rw [if_pos hm, if_pos (List.mem_cons_of_mem _ hm)]
      · rw [if_neg hm, if_neg (by
          rw [List.mem_cons]
          push_neg
          exact ⟨fun h => hk h.symm, hm⟩)]


/-- The fully merged readings map: a timestamp is present exactly when
some axis series hits it, and its record carries each series' last value at
that timestamp (with 0 for axes that never hit it). -/
theorem alookup_combined (xs ys zs : List Sample) (t : Nat) :
    alookup t (processAxis setZAxis (processAxis setYAxis
        (processAxis setXAxis [] xs) ys) zs) =
      if t ∈ sampleTimes xs ∨ t ∈ sampleTimes ys ∨ t ∈ sampleTimes zs then
        some ⟨t, lastDataAt xs t, lastDataAt ys t, lastDataAt zs t⟩
      else none := by
  have hovX : ∀ (v w : ℚ) (a : AccRec), setXAxis v (setXAxis w a) = setXAxis v a :=
    fun v w a => rfl
  have hovY : ∀ (v w : ℚ) (a : AccRec), setYAxis v (setYAxis w a) = setYAxis v a :=
    fun v w a => rfl
  have hovZ : ∀ (v w : ℚ) (a : AccRec), setZAxis v (setZAxis w a) = setZAxis v a :=
    fun v w a => rfl
  rw [alookup_processAxis setZAxis hovZ, alookup_processAxis setYAxis hovY,
    alookup_processAxis setXAxis hovX]
  by_cases hx : t ∈ sampleTimes xs <;>
    by_cases hy : t ∈ sampleTimes ys <;>
      by_cases hz : t ∈ sampleTimes zs <;>
        simp [hx, hy, hz, setXAxis, setYAxis, setZAxis, blankRec, alookup,
          lastDataAt_of_not_mem]



/-- C6: Accelerometer Fusion merges the three single-axis series by exact
timestamp equality: every timestamp occurring in any series yields exactly
one fused record, whose axes equal that series' (last) sample data at that
timestamp with null coerced to 0 and 0 for axes with no sample there; the
fused output is sorted ascending by dateTime; and an x-series sample at T1
with data 9.81 (= 981/100) and empty y- and z-series fuses to
{x := 9.81, y := 0, z := 0}, whose unrounded G-force magnitude is 1. -/
theorem combineAccelerometerData_spec (xs ys zs : List Sample) :
    (∀ t : Nat,
      ((combineAccelerometerData xs ys zs).filter (fun a => a.dateTime = t)).length =
        (if t ∈ sampleTimes xs ∨ t ∈ sampleTimes ys ∨ t ∈ sampleTimes zs then 1 else 0)) ∧
    (∀ a ∈ combineAccelerometerData xs ys zs,
      a.accelerationX = lastDataAt xs a.dateTime ∧
      a.accelerationY = lastDataAt ys a.dateTime ∧
      a.accelerationZ = lastDataAt zs a.dateTime) ∧
    List.Pairwise (fun a b => a.dateTime ≤ b.dateTime)
      (combineAccelerometerData xs ys zs) ∧
    (∀ t1 : Nat,
      combineAccelerometerData [⟨t1, some (981 / 100)⟩] [] [] = [⟨t1, 981 / 100, 0, 0⟩] ∧
      normGForce ⟨t1, 981 / 100, 0, 0⟩ = 1) := by
  have hnd : ((processAxis setZAxis (processAxis setYAxis
      (processAxis setXAxis [] xs) ys) zs).map Prod.fst).Nodup :=
    processAxis_keys_nodup setZAxis zs _
      (processAxis_keys_nodup setYAxis ys _
        (processAxis_keys_nodup setXAxis xs [] (by simp)))
  have hdtM : ∀ p ∈ processAxis setZAxis (processAxis setYAxis
      (processAxis setXAxis [] xs) ys) zs, (p.2).dateTime = p.1 :=
    processAxis_entry_dt setZAxis (fun v a => rfl) zs _
      (processAxis_entry_dt setYAxis (fun v a => rfl) ys _
        (processAxis_entry_dt setXAxis (fun v a => rfl) xs [] (by simp)))
  have hkeys : ∀ t : Nat,
      t ∈ (processAxis setZAxis (processAxis setYAxis
        (processAxis setXAxis [] xs) ys) zs).map Prod.fst ↔
      (t ∈ sampleTimes xs ∨ t ∈ sampleTimes ys ∨ t ∈ sampleTimes zs) := by
    intro t
    rw [← alookup_isSome_iff, alookup_combined]
    by_cases h : t ∈ sampleTimes xs ∨ t ∈ sampleTimes ys ∨ t ∈ sampleTimes zs <;>
      simp [h]
  have hperm : (combineAccelerometerData xs ys zs).Perm
      ((processAxis setZAxis (processAxis setYAxis
        (processAxis setXAxis [] xs) ys) zs).map Prod.snd) := by
    unfold combineAccelerometerData sortAscBy
    exact List.perm_insertionSort _ _
  refine ⟨?_, ?_, ?_, ?_⟩
  · intro t
    rw [(hperm.filter _).length_eq,
      count_dateTime_map_snd t _ hnd hdtM]
    by_cases h : t ∈ sampleTimes xs ∨ t ∈ sampleTimes ys ∨ t ∈ sampleTimes zs
    · rw [if_pos ((hkeys t).mpr h), if_pos h]
    · rw [if_neg (fun hm => h ((hkeys t).mp hm)), if_neg h]
  · intro a ha
    have ham : a ∈ (processAxis setZAxis (processAxis setYAxis
        (processAxis setXAxis [] xs) ys) zs).map Prod.snd := hperm.mem_iff.mp ha
    rcases List.mem_map.mp ham with ⟨p, hp, he⟩
    have hadt : a.dateTime = p.1 := he ▸ hdtM p hp
    have hl := alookup_eq_some_of_mem p.1 p.2 _ hnd (by
      have : (p.1, p.2) = p := rfl
      rw [this]
      exact hp)
    rw [alookup_combined] at hl
    by_cases hc : p.1 ∈ sampleTimes xs ∨ p.1 ∈ sampleTimes ys ∨ p.1 ∈ sampleTimes zs
    · rw [if_pos hc] at hl
      have hpa : p.2 = a := he
      rw [hpa] at hl
      have := Option.some.inj hl
      rw [← this]
      exact ⟨rfl, rfl, rfl⟩
    · rw [if_neg hc] at hl
      exact absurd hl (by simp)
  · unfold combineAccelerometerData sortAscBy
    haveI ht : IsTotal AccRec (fun a b => a.dateTime ≤ b.dateTime) :=
      ⟨fun a b => le_total _ _⟩
    haveI htr : IsTrans AccRec (fun a b => a.dateTime ≤ b.dateTime) :=
      ⟨fun _ _ _ hab hbc => le_trans hab hbc⟩
    exact List.sorted_insertionSort _ _
  · intro t1
    constructor
    · rfl
    · have hx : gForceAxis (981 / 100) = 1 := by
        unfold gForceAxis
        push_cast
        norm_num
      have h0 : gForceAxis 0 = 0 := by
        unfold gForceAxis
        norm_num
      unfold normGForce
      rw [hx, h0]
      norm_num

/-- Witness for C6 on a concrete one-sample x-series. -/
theorem combineAccelerometerData_spec_witness :
    (⟨7, 2, 0, 0⟩ : AccRec) ∈ combineAccelerometerData [⟨7, some 2⟩] [] [] ∧
    (⟨7, 2, 0, 0⟩ : AccRec).accelerationX = lastDataAt [⟨7, some 2⟩] 7 := by
  have hm : (⟨7, 2, 0, 0⟩ : AccRec) ∈ combineAccelerometerData [⟨7, some 2⟩] [] [] := by
    decide
  exact ⟨hm, (((combineAccelerometerData_spec [⟨7, some 2⟩] [] []).2.1) _ hm).1⟩



/-- Rounding to 3 decimal places is idempotent. -/
theorem round3_round3 (v : ℝ) : round3 (round3 v) = round3 v := by
  unfold round3
  have h1 : ((⌊v * 1000 + 1 / 2⌋ : ℤ) : ℝ) / 1000 * 1000 + 1 / 2 =
      ((⌊v * 1000 + 1 / 2⌋ : ℤ) : ℝ) + 1 / 2 := by
    field_simp
  rw [h1, Int.floor_int_add]
  have h3 : ⌊(1 / 2 : ℝ)⌋ = 0 := by
    rw [Int.floor_eq_zero_iff]
    constructor <;> norm_num
  rw [h3, add_zero]

/-- The running maximum of a non-empty list is one of its elements. -/
theorem maxListR_mem : ∀ (v : ℝ) (rest : List ℝ), rest.foldl max v ∈ v :: rest := by
  intro v rest
  induction rest generalizing v with
  | nil => exact List.mem_singleton.mpr rfl
  | cons w t ih =>
    rw [List.foldl_cons]
    rcases List.mem_cons.mp (ih (max v w)) with hh | hh
    · rw [hh]
      rcases max_choice v w with hm | hm <;> rw [hm]
      · exact List.mem_cons_self _ _
      · exact List.mem_cons.mpr (Or.inr (List.mem_cons_self _ _))
    · exact List.mem_cons.mpr (Or.inr (List.mem_cons.mpr (Or.inr hh)))

/-- The running minimum of a non-empty list is one of its elements. -/
theorem minListR_mem : ∀ (v : ℝ) (rest : List ℝ), rest.foldl min v ∈ v :: rest := by
  intro v rest
  induction rest generalizing v with
  | nil => exact List.mem_singleton.mpr rfl
  | cons w t ih =>
    rw [List.foldl_cons]
    rcases List.mem_cons.mp (ih (min v w)) with hh | hh
    · rw [hh]
      rcases min_choice v w with hm | hm <;> rw [hm]
      · exact List.mem_cons_self _ _
      · exact List.mem_cons.mpr (Or.inr (List.mem_cons_self _ _))
    · exact List.mem_cons.mpr (Or.inr (List.mem_cons.mpr (Or.inr hh)))

/-- The maximum of already-rounded values is unchanged by re-rounding. -/
theorem round3_maxListR (l : List ℝ) (hl : ∀ x ∈ l, round3 x = x) (h : l ≠ []) :
    round3 (maxListR l) = maxListR l := by
  rcases l with _ | ⟨v, rest⟩
  · exact absurd rfl h
  · exact hl _ (maxListR_mem v rest)

/-- The minimum of already-rounded values is unchanged by re-rounding. -/
theorem round3_minListR (l : List ℝ) (hl : ∀ x ∈ l, round3 x = x) (h : l ≠ []) :
    round3 (minListR l) = minListR l := by
  rcases l with _ | ⟨v, rest⟩
  · exact absurd rfl h
  · exact hl _ (minListR_mem v rest)

/-- Every per-sample rounded magnitude is a fixed point of rounding. -/
theorem roundedNorms_fixed (data : List AccRec) :
    ∀ x ∈ roundedNorms data, round3 x = x := by
  intro x hx
  rcases List.mem_map.mp hx with ⟨a, _, he⟩
  rw [← he, round3_round3]



/-- C7 (amended): the aggregate G-force statistics are computed from the
per-sample totalGForce values as stored, i.e. already rounded to 3 decimal
places — maxGForce and minGForce equal the max and min of the ROUNDED
magnitudes (the final re-rounding being the identity on them), avgGForce is
the mean of the ROUNDED magnitudes rounded again, and totalDataPoints is
the sample count.  The claim's assertion that the aggregates are taken over
the full-precision norms does not hold. -/
theorem gForceStats_spec (data : List AccRec) (h : data ≠ []) :
    (gForceStats data).maxGForce = maxListR (roundedNorms data) ∧
    (gForceStats data).minGForce = minListR (roundedNorms data) ∧
    (gForceStats data).avgGForce =
      round3 ((roundedNorms data).foldl (fun sum val => sum + val) 0 / (data.length : ℝ)) ∧
    (gForceStats data).totalDataPoints = data.length := by
  rcases data with _ | ⟨a, as⟩
  · exact absurd rfl h
  · have hne : roundedNorms (a :: as) ≠ [] := by simp [roundedNorms]
    have hfix := roundedNorms_fixed (a :: as)
    refine ⟨?_, ?_, ?_, ?_⟩
    · have h1 : (gForceStats (a :: as)).maxGForce =
          round3 (maxListR (roundedNorms (a :: as))) := by
        simp only [gForceStats, List.map_map, List.map_cons]
        rfl
      rw [h1, round3_maxListR _ hfix hne]
    · have h1 : (gForceStats (a :: as)).minGForce =
          round3 (minListR (roundedNorms (a :: as))) := by
        simp only [gForceStats, List.map_map, List.map_cons]
        rfl
      rw [h1, round3_minListR _ hfix hne]
    · have h1 : (gForceStats (a :: as)).avgGForce =
          round3 ((roundedNorms (a :: as)).foldl (fun sum val => sum + val) 0 /
            ((a :: as).length : ℝ)) := by
        simp only [gForceStats, List.map_map, List.length_map]
        rfl
      rw [h1]
    · have h1 : (gForceStats (a :: as)).totalDataPoints =
          ((a :: as).map processReading).length := by
        simp only [gForceStats]
      rw [h1, List.length_map]

/-- Witness for C7 (amended) on a one-sample data set. -/
theorem gForceStats_spec_witness :
    ([(⟨0, 1, 0, 0⟩ : AccRec)] : List AccRec) ≠ [] ∧
    (gForceStats [(⟨0, 1, 0, 0⟩ : AccRec)]).maxGForce =
      maxListR (roundedNorms [(⟨0, 1, 0, 0⟩ : AccRec)]) :=
  ⟨by simp, (gForceStats_spec [(⟨0, 1, 0, 0⟩ : AccRec)] (by simp)).1⟩

/-- Counterexample to C7 as stated: a single sample with unrounded
magnitude 1/16 = 0.0625 is reported with maxGForce 0.063 — the max of the
rounded values, not of the full-precision ones. -/
theorem gForceStats_counterexample :
    normGForce cSample = 1 / 16 ∧
    (gForceStats [cSample]).maxGForce = 63 / 1000 ∧
    ((63 : ℝ) / 1000) ≠ 1 / 16 := by
  have hgx : gForceAxis (981 / 1600) = 1 / 16 := by
    unfold gForceAxis
    push_cast
    norm_num
  have hg0 : gForceAxis 0 = 0 := by
    unfold gForceAxis
    norm_num
  have hnorm : normGForce cSample = 1 / 16 := by
    show Real.sqrt (gForceAxis (981 / 1600) * gForceAxis (981 / 1600) +
      gForceAxis 0 * gForceAxis 0 + gForceAxis 0 * gForceAxis 0) = 1 / 16
    rw [hgx, hg0]
    rw [show (1 / 16 * (1 / 16) + 0 * 0 + 0 * 0 : ℝ) = 1 / 16 * (1 / 16) by ring]
    exact Real.sqrt_mul_self (by norm_num)
  have hr : round3 (1 / 16 : ℝ) = 63 / 1000 := by
    unfold round3
    rw [show (1 / 16 : ℝ) * 1000 + 1 / 2 = ((63 : ℤ) : ℝ) by push_cast; norm_num]
    rw [Int.floor_intCast]
    norm_num
  have hmax : (gForceStats [cSample]).maxGForce = round3 (round3 (normGForce cSample)) := rfl
  refine ⟨hnorm, ?_, by norm_num⟩
  rw [hmax, hnorm, round3_round3, hr]



/-- The reduce of the fallback path keeps a series at least as long as
the seed and every visited series. -/
theorem foldl_best_le :
    ∀ (l : List (List Sample)) (init : List Sample),
      init.length ≤ (l.foldl (fun best cur =>
        if best.length < cur.length then cur else best) init).length ∧
      ∀ s ∈ l, s.length ≤ (l.foldl (fun best cur =>
        if best.length < cur.length then cur else best) init).length := by
  intro l
  induction l with
  | nil => intro init; exact ⟨le_refl _, by simp⟩
  | cons c t ih =>
    intro init
    rw [List.foldl_cons]
    have hstep : init.length ≤ (if init.length < c.length then c else init).length ∧
        c.length ≤ (if init.length < c.length then c else init).length := by
      by_cases hc : init.length < c.length
      · rw [if_pos hc]
        exact ⟨hc.le, le_refl _⟩
      · rw [if_neg hc]
        exact ⟨le_refl _, le_of_not_lt hc⟩
    refine ⟨le_trans hstep.1 (ih _).1, ?_⟩
    intro s hs
    rcases List.mem_cons.mp hs with hs | hs
    · rw [hs]
      exact le_trans hstep.2 (ih _).1
    · exact (ih _).2 s hs

/-- The reduce of the fallback path yields its seed or a visited
series. -/
theorem foldl_best_mem :
    ∀ (l : List (List Sample)) (init : List Sample),
      (l.foldl (fun best cur =>
        if best.length < cur.length then cur else best) init) = init ∨
      (l.foldl (fun best cur =>
        if best.length < cur.length then cur else best) init) ∈ l := by
  intro l
  induction l with
  | nil => intro init; exact Or.inl rfl
  | cons c t ih =>
    intro init
    rw [List.foldl_cons]
    by_cases hc : init.length < c.length
    · rw [if_pos hc]
      rcases ih c with hh | hh
      · refine Or.inr ?_
        rw [hh]
        exact List.mem_cons_self _ _
      · exact Or.inr (List.mem_cons_of_mem _ hh)
    · rw [if_neg hc]
      rcases ih init with hh | hh
      · exact Or.inl hh
      · exact Or.inr (List.mem_cons_of_mem _ hh)

/-- C8 (amended): the fallback path picks a best-populated single-axis
series (at least as long as every candidate, and one of them when any
exist) and maps it entirely onto the X axis with Y = Z = 0 — but the
records are returned in exactly the same AccelerometerSample shape as the
primary path, with NO provenance flag or any other marking distinguishing
them as degraded data. -/
theorem fetchAccelerometerDataAlternative_spec (results : List (List Sample)) :
    (∀ s ∈ results, s.length ≤ (bestResult results).length) ∧
    (results ≠ [] → bestResult results ∈ results) ∧
    fetchAccelerometerDataAlternative results =
      (bestResult results).map
        (fun reading => ⟨reading.dateTime, reading.data.getD 0, 0, 0⟩) ∧
    (∀ rec ∈ fetchAccelerometerDataAlternative results,
      rec.accelerationY = 0 ∧ rec.accelerationZ = 0) := by
  have hmap : fetchAccelerometerDataAlternative results =
      (bestResult results).map
        (fun reading => ⟨reading.dateTime, reading.data.getD 0, 0, 0⟩) := by
    rcases results with _ | ⟨r, rs⟩
    · rfl
    · rfl
  refine ⟨?_, ?_, hmap, ?_⟩
  · intro s hs
    exact (foldl_best_le results (results.headD [])).2 s hs
  · intro hne
    rcases results with _ | ⟨r, rs⟩
    · exact absurd rfl hne
    · rcases foldl_best_mem (r :: rs) ((r :: rs).headD []) with hh | hh
      · unfold bestResult
        rw [hh]
        exact List.mem_cons_self _ _
      · exact hh
  · intro rec hrec
    rw [hmap] at hrec
    rcases List.mem_map.mp hrec with ⟨reading, _, he⟩
    rw [← he]
    exact ⟨rfl, rfl⟩

/-- Witness for C8 (amended) on a one-candidate result set. -/
theorem fetchAccelerometerDataAlternative_spec_witness :
    ([[(⟨5, some 2⟩ : Sample)]] : List (List Sample)) ≠ [] ∧
    bestResult [[(⟨5, some 2⟩ : Sample)]] ∈ [[(⟨5, some 2⟩ : Sample)]] :=
  ⟨by simp, (fetchAccelerometerDataAlternative_spec [[⟨5, some 2⟩]]).2.1 (by simp)⟩

/-- Counterexample to C8 as stated: on suitable inputs the fallback path
returns records EQUAL to those of the primary tri-axis path, so no
provenance flag reaches the caller — the fallback output is
indistinguishable from true tri-axis data. -/
theorem fetchAccelerometerDataAlternative_counterexample :
    fetchAccelerometerDataAlternative [[⟨5, some 2⟩]] =
      combineAccelerometerData [⟨5, some 2⟩] [] [] ∧
    fetchAccelerometerDataAlternative [[⟨5, some 2⟩]] =
      [(⟨5, 2, 0, 0⟩ : AccRec)] :=
  ⟨by decide, by decide⟩


end GeotabTracker
